import Mathlib

/-!
Verification of the replay/backtesting core of a diabetes-copilot backend.

The development shallowly embeds three Python modules:
  * `predict_service.py`  — trend-extrapolation forecaster,
  * `rule_service.py`     — the PostHypoReboundGuard.v1 rule evaluator,
  * `replay_service.py`   — the replay engine and statistics aggregator.

Machine floats are modelled as exact rationals (`ℚ`), millisecond
timestamps as `ℤ`.  Python's stable `sorted` is modelled by a stable
insertion sort (`sortKey`), `min(..., key=f)` (first minimum wins) by
`pyMin`, `range(a, b, s)` by `pyRange`, and a `defaultdict(list)` keyed
by horizon by an association list in first-insertion key order
(`addSample`).  The Python field `rmse` holds `math.sqrt` of a mean of
squares; since real square roots are noncomputable, the embedded record
carries the radicand in field `rmseSq` and theorems speak of
`Real.sqrt (rmseSq)`.
-/

/-- Record `models.GlucosePoint`: one glucose reading (`ts` in ms, value in mmol/L). -/
structure GlucosePoint where
  ts : Int
  valueMmol : ℚ
  source : String
  quality : String
deriving DecidableEq, Repr

instance : Inhabited GlucosePoint := ⟨⟨0, 0, "", ""⟩⟩

/-- Record `models.TherapyEvent` (payload kept as an association list). -/
structure TherapyEvent where
  id : String
  ts : Int
  type : String
  payload : List (String × String)
deriving DecidableEq, Repr

/-- Record `models.ForecastOut`: one forecast row. -/
structure ForecastOut where
  ts : Int
  horizon : Nat
  valueMmol : ℚ
  ciLow : ℚ
  ciHigh : ℚ
  modelVersion : String
deriving DecidableEq, Repr

/-- Record `models.ActionProposal`. -/
structure ActionProposal where
  type : String
  targetMmol : ℚ
  durationMinutes : Nat
  reason : String
deriving DecidableEq, Repr

/-- The `Literal["TRIGGERED", "BLOCKED", "NO_MATCH"]` state of a rule decision. -/
inductive RuleState where
  | TRIGGERED
  | BLOCKED
  | NO_MATCH
deriving DecidableEq, Repr

/-- Record `models.RuleDecisionOut`. -/
structure RuleDecisionOut where
  ruleId : String
  state : RuleState
  reasons : List String
  actionProposal : Option ActionProposal
deriving DecidableEq, Repr

/-- One error sample: the tuple `(abs_error, sq_error, ard, actual.ts)`
accumulated per horizon in `replay_service.build_replay_report`. -/
structure Sample where
  absError : ℚ
  sqError : ℚ
  ard : ℚ
  ts : Int
deriving DecidableEq, Repr

/-- Record `models.ReplayForecastStats`; `rmseSq` is the radicand of the Python
`rmse` field (`rmse = math.sqrt(rmseSq)`). -/
structure ReplayForecastStats where
  horizon : Nat
  sampleCount : Nat
  mae : ℚ
  rmseSq : ℚ
  mardPct : ℚ
deriving DecidableEq, Repr

/-- Record `models.ReplayRuleStats`. -/
structure ReplayRuleStats where
  ruleId : String
  triggered : Nat
  blocked : Nat
  noMatch : Nat
deriving DecidableEq, Repr

/-- Record `models.ReplayDayTypeStats` (`dayType` is `"WEEKDAY"` or `"WEEKEND"`). -/
structure ReplayDayTypeStats where
  dayType : String
  forecastStats : List ReplayForecastStats
deriving DecidableEq, Repr

/-- Record `models.ReplayHourStats`; `rmseSq` as in `ReplayForecastStats`. -/
structure ReplayHourStats where
  hour : Nat
  sampleCount : Nat
  mae : ℚ
  rmseSq : ℚ
  mardPct : ℚ
deriving DecidableEq, Repr

/-- Record `models.ReplayDriftStats`. -/
structure ReplayDriftStats where
  horizon : Nat
  previousMae : ℚ
  recentMae : ℚ
  deltaMae : ℚ
deriving DecidableEq, Repr

/-- The `rule_counter` dict `{"TRIGGERED": _, "BLOCKED": _, "NO_MATCH": _}`. -/
structure RuleCounter where
  triggered : Nat
  blocked : Nat
  noMatch : Nat
deriving DecidableEq, Repr

/-- Record `models.ReplayReportResponse` (`untilTs` renders the Python field
`until`, a reserved word in Lean). -/
structure ReplayReportResponse where
  since : Int
  untilTs : Int
  points : Nat
  forecastStats : List ReplayForecastStats
  ruleStats : List ReplayRuleStats
  dayTypeStats : List ReplayDayTypeStats
  hourlyStats : List ReplayHourStats
  driftStats : List ReplayDriftStats
deriving DecidableEq, Repr

/-! ### Python list and dict primitives -/

/-- Stable insertion step: place `a` after every element whose key is
`≤ key a`, mirroring the stability of Python's `sorted`. -/
def insertKey {α : Type} (f : α → Int) (l : List α) (a : α) : List α :=
  match l with
  | [] => [a]
  | b :: t => if f b ≤ f a then b :: insertKey f t a else a :: b :: t

/-- Stable ascending sort by an integer key, modelling `sorted(l, key=f)`. -/
def sortKey {α : Type} (f : α → Int) (l : List α) : List α :=
  l.foldl (insertKey f) []

/-- Python `min(l, key=f)` for a possibly empty list: Python's `min` keeps the
first element attaining the least key. -/
def pyMin {α : Type} (f : α → Int) : List α → Option α
  | [] => none
  | b :: t => some (t.foldl (fun best q => if f q < f best then q else best) b)

/-- Python `range(start, stop, step)` for a positive `step`. -/
def pyRange (start stop step : Nat) : List Nat :=
  List.range' start ((stop - start + step - 1) / step) step

/-- The slice `l[a : b]` for `0 ≤ a ≤ b`. -/
def pySlice {α : Type} (l : List α) (a b : Nat) : List α :=
  (l.drop a).take (b - a)

/-- Python `l[-n:]`: the last at-most-`n` elements. -/
def lastN {α : Type} (l : List α) (n : Nat) : List α :=
  l.drop (l.length - n)

/-! ### `predict_service.py` -/

/-- Function `_slope_per_5m`: trend over up to the last 6 readings, normalised to
mmol/L per 5 minutes, with the time delta floored at 1 ms. -/
def _slope_per_5m (glucose : List GlucosePoint) : ℚ :=
  if glucose.length < 2 then 0
  else
    let first := if 6 ≤ glucose.length then glucose.getD (glucose.length - 6) default
                 else glucose.headD default
    let last := glucose.getLastD default
    let dt : Int := max 1 (last.ts - first.ts)
    ((last.valueMmol - first.valueMmol) / (dt : ℚ)) * (5 * 60 * 1000)

/-- Function `predict`: two forecasts (5-minute and 60-minute horizons) from a
non-empty reading list, `[]` from an empty one. -/
def predict (glucose : List GlucosePoint) : List ForecastOut :=
  if glucose = [] then []
  else
    let sorted_points := sortKey (fun p => p.ts) glucose
    let latest := sorted_points.getLastD default
    let slope := _slope_per_5m sorted_points
    let value_5 := latest.valueMmol + slope
    let window := (lastN sorted_points 24).map (fun p => p.valueMmol)
    let base := if window = [] then latest.valueMmol else window.sum / (window.length : ℚ)
    let value_60 := base + slope * 12
    [ { ts := latest.ts + 5 * 60 * 1000
        horizon := 5
        valueMmol := value_5
        ciLow := max 2.2 (value_5 - 0.45)
        ciHigh := value_5 + 0.45
        modelVersion := "cloud-hf-v1" },
      { ts := latest.ts + 60 * 60 * 1000
        horizon := 60
        valueMmol := value_60
        ciLow := max 2.2 (value_60 - 1.2)
        ciHigh := value_60 + 1.2
        modelVersion := "cloud-ensemble-v1" } ]

/-! ### `rule_service.py` -/

/-- Shared constructor for the rule's NO_MATCH outcomes. -/
def noMatchDecision (reason : String) : RuleDecisionOut :=
  { ruleId := "PostHypoReboundGuard.v1"
    state := RuleState.NO_MATCH
    reasons := [reason]
    actionProposal := none }

/-- Function `evaluate_post_hypo_rebound`: the PostHypoReboundGuard.v1 state machine. -/
def evaluate_post_hypo_rebound (glucose : List GlucosePoint) : RuleDecisionOut :=
  if glucose.length < 4 then noMatchDecision "insufficient_points"
  else
    let sorted_points := sortKey (fun p => p.ts) glucose
    let hypo_points := sorted_points.filter (fun p => decide (p.valueMmol ≤ 3.0))
    match hypo_points.getLast? with
    | none => noMatchDecision "no_hypo"
    | some hypo =>
      let after := sorted_points.filter (fun p => decide (hypo.ts < p.ts))
      if after.length < 3 then noMatchDecision "insufficient_post_hypo_points"
      else
        if (after.getD 1 default).valueMmol - (after.getD 0 default).valueMmol > 0.2
            ∧ (after.getD 2 default).valueMmol - (after.getD 1 default).valueMmol > 0.2 then
          { ruleId := "PostHypoReboundGuard.v1"
            state := RuleState.TRIGGERED
            reasons := ["hypo_plus_rising_trend"]
            actionProposal := some
              { type := "temp_target"
                targetMmol := 4.4
                durationMinutes := 60
                reason := "post_hypo_rebound" } }
        else noMatchDecision "no_rebound"

/-! ### `replay_service.py` -/

/-- Function `_closest_glucose`: the reading minimising `|ts - target_ts|`
(first one on ties), dropped when farther than `tolerance_ms`. -/
def _closest_glucose (points : List GlucosePoint) (target_ts tolerance_ms : Int) :
    Option GlucosePoint :=
  match pyMin (fun p => |p.ts - target_ts|) points with
  | none => none
  | some best => if tolerance_ms < |best.ts - target_ts| then none else some best

/-- The horizon-dependent match tolerance of the replay loop
(5 min for horizons ≤ 10 min, 15 min beyond). -/
def tolerance_ms (horizon : Nat) : Int :=
  if horizon ≤ 10 then 5 * 60 * 1000 else 15 * 60 * 1000

/-- The error-sample tuple recorded for a matched forecast
(`abs_error`, `sq_error`, `ard`, `actual.ts`; lines 72–75). -/
def mkSample (actual : GlucosePoint) (fc : ForecastOut) : Sample :=
  let abs_error := |actual.valueMmol - fc.valueMmol|
  { absError := abs_error
    sqError := abs_error * abs_error
    ard := if 0 < actual.valueMmol then abs_error / actual.valueMmol else 0
    ts := actual.ts }

/-- Match one forecast against ground truth and build its sample, `none`
when no reading lies within tolerance (lines 66–75). -/
def scoreForecast (sorted_glucose : List GlucosePoint) (fc : ForecastOut) : Option Sample :=
  match _closest_glucose sorted_glucose fc.ts (tolerance_ms fc.horizon) with
  | none => none
  | some actual => some (mkSample actual fc)

/-- Python `horizon_errors[h].append(s)` on a `defaultdict(list)` rendered as an
association list in first-insertion key order. -/
def addSample (he : List (Nat × List Sample)) (h : Nat) (s : Sample) :
    List (Nat × List Sample) :=
  match he with
  | [] => [(h, [s])]
  | (k, l) :: rest =>
    if k = h then (k, l ++ [s]) :: rest else (k, l) :: addSample rest h s

/-- Python `rule_counter[decision.state] += 1`. -/
def bumpCounter (rc : RuleCounter) (s : RuleState) : RuleCounter :=
  match s with
  | RuleState.TRIGGERED => { rc with triggered := rc.triggered + 1 }
  | RuleState.BLOCKED => { rc with blocked := rc.blocked + 1 }
  | RuleState.NO_MATCH => { rc with noMatch := rc.noMatch + 1 }

/-- One iteration of the simulation loop (lines 59–78), threading the
accumulated samples and rule counters. -/
def stepSim (sorted_glucose : List GlucosePoint) (sorted_therapy : List TherapyEvent)
    (st : List (Nat × List Sample) × RuleCounter) (i : Nat) :
    List (Nat × List Sample) × RuleCounter :=
  let current := sorted_glucose.getD i default
  let window_glucose := pySlice sorted_glucose (i - 72) (i + 1)
  let window_start := current.ts - 24 * 60 * 60 * 1000
  let _window_therapy := sorted_therapy.filter
    (fun t => decide (window_start ≤ t.ts) && decide (t.ts ≤ current.ts))
  let forecasts := predict window_glucose
  let he := forecasts.foldl
    (fun he fc =>
      match scoreForecast sorted_glucose fc with
      | none => he
      | some s => addSample he fc.horizon s) st.1
  let decision := evaluate_post_hypo_rebound window_glucose
  (he, bumpCounter st.2 decision.state)

/-- Arithmetic mean of the absolute errors of a sample list. -/
def meanAbs (rows : List Sample) : ℚ :=
  (rows.map (fun s => s.absError)).sum / (rows.length : ℚ)

/-- Arithmetic mean of the squared errors of a sample list. -/
def meanSq (rows : List Sample) : ℚ :=
  (rows.map (fun s => s.sqError)).sum / (rows.length : ℚ)

/-- Arithmetic mean of the absolute relative differences of a sample list. -/
def meanArd (rows : List Sample) : ℚ :=
  (rows.map (fun s => s.ard)).sum / (rows.length : ℚ)

/-- The per-horizon statistics loop (lines 80–96, reused on lines
136–149): iterate horizons in ascending order, skip empty buckets, emit
mae / mean-square (the `rmse` radicand) / mardPct. -/
def statsRow (x : Nat × List Sample) : Option ReplayForecastStats :=
  if x.2 = [] then none
  else some
    { horizon := x.1
      sampleCount := x.2.length
      mae := meanAbs x.2
      rmseSq := meanSq x.2
      mardPct := meanArd x.2 * 100 }

/-- Iterate horizons in ascending order, skipping empty buckets, and emit
one `statsRow` per remaining horizon. -/
def buildForecastStats (he : List (Nat × List Sample)) : List ReplayForecastStats :=
  (sortKey (fun x => (x.1 : Int)) he).filterMap statsRow

/-- Day-of-week index of a UTC millisecond timestamp with Monday = 0,
as `datetime.fromtimestamp(ts / 1000, tz=UTC).weekday()`
(epoch day 0 was a Thursday). -/
def weekdayOf (ts : Int) : Int :=
  (Int.fdiv ts 86400000 + 3) % 7

/-- Saturday (5) or Sunday (6) in UTC. -/
def isWeekend (ts : Int) : Bool :=
  decide (5 ≤ weekdayOf ts)

/-- UTC hour of day of a millisecond timestamp. -/
def hourOf (ts : Int) : Int :=
  Int.fdiv ts 3600000 % 24

/-- The per-day-type regrouping of `_build_day_type_stats` (lines
128–131): keep, per horizon, the samples whose weekend flag matches. -/
def dayTypeRows (he : List (Nat × List Sample)) (wantWeekend : Bool) :
    List (Nat × List Sample) :=
  he.map (fun x => (x.1, x.2.filter (fun s => isWeekend s.ts == wantWeekend)))

/-- Function `_build_day_type_stats`: always a WEEKDAY entry then a WEEKEND entry. -/
def _build_day_type_stats (he : List (Nat × List Sample)) : List ReplayDayTypeStats :=
  [ { dayType := "WEEKDAY", forecastStats := buildForecastStats (dayTypeRows he false) },
    { dayType := "WEEKEND", forecastStats := buildForecastStats (dayTypeRows he true) } ]

/-- Dict lookup `he[h]` (keys are unique in every dict this models). -/
def lookupSamples (he : List (Nat × List Sample)) (h : Nat) : List Sample :=
  match he.find? (fun x => x.1 == h) with
  | none => []
  | some x => x.2

/-- The selected reference horizon of `_build_hourly_stats` (line 155):
5 when present, otherwise the smallest key, `none` for an empty dict. -/
def selectedHorizon (he : List (Nat × List Sample)) : Option Nat :=
  if (he.map (fun x => x.1)).contains 5 then some 5
  else match he.map (fun x => x.1) with
       | [] => none
       | k :: ks => some (ks.foldl min k)

/-- Function `_build_hourly_stats`: bucket the reference horizon's samples by UTC
hour, emitting non-empty hours in ascending order. -/
def _build_hourly_stats (he : List (Nat × List Sample)) : List ReplayHourStats :=
  match selectedHorizon he with
  | none => []
  | some h =>
    let samples := lookupSamples he h
    (List.range 24).filterMap
      (fun hr =>
        let rows := samples.filter (fun s => hourOf s.ts == Int.ofNat hr)
        if rows = [] then none
        else some
          { hour := hr
            sampleCount := rows.length
            mae := meanAbs rows
            rmseSq := meanSq rows
            mardPct := meanArd rows * 100 })

/-- One drift row (lines 184–199): sort a horizon's samples by actual
timestamp, require at least 10, and compare the MAE of the two halves
split at index `n // 2`. -/
def driftRow (x : Nat × List Sample) : Option ReplayDriftStats :=
  let rows := sortKey (fun s => s.ts) x.2
  if rows.length < 10 then none
  else
    some
      { horizon := x.1
        previousMae := meanAbs (rows.take (rows.length / 2))
        recentMae := meanAbs (rows.drop (rows.length / 2))
        deltaMae := meanAbs (rows.drop (rows.length / 2)) - meanAbs (rows.take (rows.length / 2)) }

/-- Function `_build_drift_stats`: one `driftRow` per horizon, ascending. -/
def _build_drift_stats (he : List (Nat × List Sample)) : List ReplayDriftStats :=
  (sortKey (fun x => (x.1 : Int)) he).filterMap driftRow

/-- The closed-interval range filter applied to both input series. -/
def inRange (since untilTs ts : Int) : Bool :=
  decide (since ≤ ts) && decide (ts ≤ untilTs)

/-- The zero rule-stat row of the insufficient-data guard. -/
def zeroRuleStats : ReplayRuleStats :=
  { ruleId := "PostHypoReboundGuard.v1", triggered := 0, blocked := 0, noMatch := 0 }

/-- Function `build_replay_report`: filter and sort both series, short-circuit
below 30 readings, otherwise run the simulation loop from index 24 with
stride `max(1, max(1, step_minutes) // 5)` and aggregate the samples. -/
def build_replay_report (glucose : List GlucosePoint) (therapy_events : List TherapyEvent)
    (since untilTs : Int) (step_minutes : Int := 5) : ReplayReportResponse :=
  let sorted_glucose := sortKey (fun g => g.ts)
    (glucose.filter (fun g => inRange since untilTs g.ts))
  let sorted_therapy := sortKey (fun t => t.ts)
    (therapy_events.filter (fun t => inRange since untilTs t.ts))
  if sorted_glucose.length < 30 then
    { since := since
      untilTs := untilTs
      points := sorted_glucose.length
      forecastStats := []
      ruleStats := [zeroRuleStats]
      dayTypeStats := []
      hourlyStats := []
      driftStats := [] }
  else
    let step : Int := max 1 step_minutes
    let stride : Nat := (max 1 (Int.fdiv step 5)).toNat
    let idxs := pyRange 24 sorted_glucose.length stride
    let acc := idxs.foldl (stepSim sorted_glucose sorted_therapy) ([], ⟨0, 0, 0⟩)
    { since := since
      untilTs := untilTs
      points := sorted_glucose.length
      forecastStats := buildForecastStats acc.1
      ruleStats := [ { ruleId := "PostHypoReboundGuard.v1"
                       triggered := acc.2.triggered
                       blocked := acc.2.blocked
                       noMatch := acc.2.noMatch } ]
      dayTypeStats := _build_day_type_stats acc.1
      hourlyStats := _build_hourly_stats acc.1
      driftStats := _build_drift_stats acc.1 }

/-! ### Claim statements

Each `...Spec` definition renders the property a claim asserts, in the
claim's own terms, so that the claim theorems below state exactly the
claimed property of the embedded code. -/

/-- C1's asserted report shape for the insufficient-data guard. -/
def guardReportSpec (glucose : List GlucosePoint) (therapy_events : List TherapyEvent)
    (since untilTs step_minutes : Int) : Prop :=
  let r := build_replay_report glucose therapy_events since untilTs step_minutes
  r.forecastStats = [] ∧ r.dayTypeStats = [] ∧ r.hourlyStats = [] ∧ r.driftStats = [] ∧
  r.ruleStats = [zeroRuleStats] ∧
  r.points = (glucose.filter (fun g => inRange since untilTs g.ts)).length

/-- C2's assertion, amended: two forecasts with horizons 5 and 60, values
below the upper band edge, and above the lower edge whenever the value is
at least the 2.2 floor. -/
def predictBandSpec (glucose : List GlucosePoint) : Prop :=
  ∃ f5 f60, predict glucose = [f5, f60] ∧ f5.horizon = 5 ∧ f60.horizon = 60 ∧
    f5.valueMmol ≤ f5.ciHigh ∧ f60.valueMmol ≤ f60.ciHigh ∧
    (2.2 ≤ f5.valueMmol → f5.ciLow ≤ f5.valueMmol) ∧
    (2.2 ≤ f60.valueMmol → f60.ciLow ≤ f60.valueMmol)

/-- C4's asserted content of one drift row for a horizon's sample list. -/
def driftEntrySpec (errs : List Sample) (d : ReplayDriftStats) : Prop :=
  ∃ rows, List.Perm rows errs ∧ List.Sorted (fun a b : Sample => a.ts ≤ b.ts) rows ∧
    rows = sortKey (fun s => s.ts) errs ∧
    (rows.take (errs.length / 2)).length = errs.length / 2 ∧
    (rows.drop (errs.length / 2)).length = errs.length - errs.length / 2 ∧
    d.previousMae = meanAbs (rows.take (errs.length / 2)) ∧
    d.recentMae = meanAbs (rows.drop (errs.length / 2)) ∧
    d.deltaMae = d.recentMae - d.previousMae

/-- C4's asserted shape of the drift statistics as a whole. -/
def driftStatsSpec (he : List (Nat × List Sample)) : Prop :=
  (∀ d ∈ _build_drift_stats he, ∃ p ∈ he, d.horizon = p.1 ∧ 10 ≤ p.2.length ∧
      driftEntrySpec p.2 d) ∧
  (∀ p ∈ he, (10 ≤ p.2.length ↔ ∃ d ∈ _build_drift_stats he, d.horizon = p.1))

/-- C5's asserted behaviour of the closest-reading lookup. -/
def closestSpec (points : List GlucosePoint) (t tol : Int) : Prop :=
  (∀ p, _closest_glucose points t tol = some p →
    p ∈ points ∧ |p.ts - t| ≤ tol ∧ (∀ q ∈ points, |p.ts - t| ≤ |q.ts - t|) ∧
      points.find? (fun q => decide (|q.ts - t| = |p.ts - t|)) = some p) ∧
  (_closest_glucose points t tol = none → points = [] ∨ ∀ q ∈ points, tol < |q.ts - t|)

/-- C6's asserted slope and forecast formulas (transcribed from the
spec's words, for comparison with the embedded `predict`). -/
def predictFormulaSpec (glucose : List GlucosePoint) : Prop :=
  let s := sortKey (fun p => p.ts) glucose
  let last := s.getLastD default
  let ref := if 6 ≤ s.length then s.getD (s.length - 6) default else s.headD default
  let slope := ((last.valueMmol - ref.valueMmol) / ((max 1 (last.ts - ref.ts) : Int) : ℚ)) * 300000
  let win := (lastN s 24).map (fun p => p.valueMmol)
  ∃ f5 f60, predict glucose = [f5, f60] ∧
    f5.valueMmol = last.valueMmol + slope ∧ f5.ts = last.ts + 5 * 60 * 1000 ∧
    f60.valueMmol = win.sum / (win.length : ℚ) + slope * 12 ∧
    f60.ts = last.ts + 60 * 60 * 1000

/-- C7's assertion, amended: error-sample fields, with the relative
difference zeroed for non-positive (not merely zero) actual values. -/
def sampleFieldsSpec (actual : GlucosePoint) (fc : ForecastOut) : Prop :=
  (mkSample actual fc).absError = |actual.valueMmol - fc.valueMmol| ∧
  (mkSample actual fc).sqError = (mkSample actual fc).absError * (mkSample actual fc).absError ∧
  (0 < actual.valueMmol →
    (mkSample actual fc).ard = (mkSample actual fc).absError / actual.valueMmol) ∧
  (actual.valueMmol ≤ 0 → (mkSample actual fc).ard = 0) ∧
  (mkSample actual fc).ts = actual.ts

/-- C8's asserted content of one day-type partition's per-horizon list
(`w` is the weekend flag of the partition). -/
def dayTypePartitionSpec (he : List (Nat × List Sample)) (w : Bool)
    (stats : List ReplayForecastStats) : Prop :=
  List.Pairwise (fun a b : ReplayForecastStats => a.horizon < b.horizon) stats ∧
  (∀ st ∈ stats, ∃ p ∈ he, st.horizon = p.1 ∧
    p.2.filter (fun s => isWeekend s.ts == w) ≠ [] ∧
    st.sampleCount = (p.2.filter (fun s => isWeekend s.ts == w)).length ∧
    st.mae = meanAbs (p.2.filter (fun s => isWeekend s.ts == w)) ∧
    st.rmseSq = meanSq (p.2.filter (fun s => isWeekend s.ts == w)) ∧
    Real.sqrt st.rmseSq = Real.sqrt (meanSq (p.2.filter (fun s => isWeekend s.ts == w))) ∧
    st.mardPct = meanArd (p.2.filter (fun s => isWeekend s.ts == w)) * 100) ∧
  (∀ p ∈ he, p.2.filter (fun s => isWeekend s.ts == w) ≠ [] → ∃ st ∈ stats, st.horizon = p.1) ∧
  ((∀ p ∈ he, p.2.filter (fun s => isWeekend s.ts == w) = []) → stats = [])

/-- C8's asserted shape of the day-type statistics as a whole. -/
def dayTypeStatsSpec (he : List (Nat × List Sample)) : Prop :=
  (∃ wd we, _build_day_type_stats he = [wd, we] ∧
    wd.dayType = "WEEKDAY" ∧ we.dayType = "WEEKEND" ∧
    dayTypePartitionSpec he false wd.forecastStats ∧
    dayTypePartitionSpec he true we.forecastStats) ∧
  (∀ p ∈ he, List.Perm
    (p.2.filter (fun s => isWeekend s.ts) ++ p.2.filter (fun s => !isWeekend s.ts)) p.2)

/-! ### Sorting lemmas -/

theorem length_insertKey {α : Type} (f : α → Int) (l : List α) (a : α) :
    (insertKey f l a).length = l.length + 1 := by
  induction l with
  | nil => rfl
  | cons b t ih =>
    simp only [insertKey]
    split
    · simp [ih]
    · simp

theorem perm_insertKey {α : Type} (f : α → Int) (l : List α) (a : α) :
    List.Perm (insertKey f l a) (a :: l) := by
  induction l with
  | nil => exact List.Perm.refl _
  | cons b t ih =>
    simp only [insertKey]
    split
    · exact List.Perm.trans (List.Perm.cons b ih) (List.Perm.swap a b t)
    · exact List.Perm.refl _

theorem mem_insertKey {α : Type} (f : α → Int) (l : List α) (a x : α) :
    x ∈ insertKey f l a ↔ x = a ∨ x ∈ l := by
  rw [(perm_insertKey f l a).mem_iff, List.mem_cons]

theorem sorted_insertKey {α : Type} (f : α → Int) {l : List α} (a : α)
    (h : List.Sorted (fun x y => f x ≤ f y) l) :
    List.Sorted (fun x y => f x ≤ f y) (insertKey f l a) := by
  induction l with
  | nil => simp [insertKey]
  | cons b t ih =>
    obtain ⟨hall, ht⟩ := List.sorted_cons.mp h
    simp only [insertKey]
    split
    · rename_i hba
      refine List.sorted_cons.mpr ⟨?_, ih ht⟩
      intro x hx
      rcases (mem_insertKey f t a x).mp hx with hxa | hxt
      · exact hxa ▸ hba
      · exact hall x hxt
    · rename_i hba
      have hab : f a ≤ f b := le_of_lt (not_le.mp hba)
      refine List.sorted_cons.mpr ⟨?_, h⟩
      intro x hx
      rcases List.mem_cons.mp hx with hxb | hxt
      · exact hxb ▸ hab
      · exact le_trans hab (hall x hxt)

theorem perm_foldl_insertKey {α : Type} (f : α → Int) :
    ∀ (l acc : List α), List.Perm (l.foldl (insertKey f) acc) (l ++ acc)
  | [], acc => List.Perm.refl _
  | x :: t, acc => by
    simp only [List.foldl_cons, List.cons_append]
    refine List.Perm.trans (perm_foldl_insertKey f t (insertKey f acc x)) ?_
    refine List.Perm.trans (List.Perm.append_left t (perm_insertKey f acc x)) ?_
    exact List.perm_middle

theorem perm_sortKey {α : Type} (f : α → Int) (l : List α) :
    List.Perm (sortKey f l) l := by
  simpa using perm_foldl_insertKey f l []

theorem length_sortKey {α : Type} (f : α → Int) (l : List α) :
    (sortKey f l).length = l.length :=
  (perm_sortKey f l).length_eq

theorem mem_sortKey {α : Type} (f : α → Int) (l : List α) (x : α) :
    x ∈ sortKey f l ↔ x ∈ l :=
  (perm_sortKey f l).mem_iff

theorem sorted_foldl_insertKey {α : Type} (f : α → Int) :
    ∀ (l acc : List α), List.Sorted (fun x y => f x ≤ f y) acc →
      List.Sorted (fun x y => f x ≤ f y) (l.foldl (insertKey f) acc)
  | [], _, h => h
  | x :: t, acc, h => by
    simp only [List.foldl_cons]
    exact sorted_foldl_insertKey f t (insertKey f acc x) (sorted_insertKey f x h)

theorem sorted_sortKey {α : Type} (f : α → Int) (l : List α) :
    List.Sorted (fun x y => f x ≤ f y) (sortKey f l) :=
  sorted_foldl_insertKey f l [] List.sorted_nil

/-! ### Argmin lemmas -/

theorem foldl_min_spec {α : Type} (f : α → Int) :
    ∀ (l : List α) (b : α), ∃ r,
      l.foldl (fun best q => if f q < f best then q else best) b = r ∧
      ((r = b ∧ ∀ q ∈ l, f b ≤ f q) ∨
       (f r < f b ∧ ∃ l₁ l₂, l = l₁ ++ r :: l₂ ∧ (∀ q ∈ l₁, f r < f q) ∧ (∀ q ∈ l₂, f r ≤ f q)))
  | [], b => ⟨b, rfl, Or.inl ⟨rfl, by simp⟩⟩
  | q :: t, b => by
    by_cases hq : f q < f b
    · obtain ⟨r, hr, hcase⟩ := foldl_min_spec f t q
      refine ⟨r, by simpa [hq] using hr, Or.inr ?_⟩
      rcases hcase with ⟨req, hall⟩ | ⟨hlt, l₁, l₂, heq, h₁, h₂⟩
      · subst req
        exact ⟨hq, [], t, rfl, by simp, hall⟩
      · refine ⟨lt_trans hlt hq, q :: l₁, l₂, by simp [heq], ?_, h₂⟩
        intro x hx
        rcases List.mem_cons.mp hx with hxq | hxl
        · exact hxq ▸ hlt
        · exact h₁ x hxl
    · obtain ⟨r, hr, hcase⟩ := foldl_min_spec f t b
      refine ⟨r, by simpa [hq] using hr, ?_⟩
      rcases hcase with ⟨req, hall⟩ | ⟨hlt, l₁, l₂, heq, h₁, h₂⟩
      · refine Or.inl ⟨req, ?_⟩
        intro x hx
        rcases List.mem_cons.mp hx with hxq | hxt
        · exact hxq ▸ not_lt.mp hq
        · exact hall x hxt
      · refine Or.inr ⟨hlt, q :: l₁, l₂, by simp [heq], ?_, h₂⟩
        intro x hx
        rcases List.mem_cons.mp hx with hxq | hxl
        · exact hxq ▸ lt_of_lt_of_le hlt (not_lt.mp hq)
        · exact h₁ x hxl

theorem pyMin_spec {α : Type} (f : α → Int) (l : List α) (hne : l ≠ []) :
    ∃ r, pyMin f l = some r ∧
      ∃ l₁ l₂, l = l₁ ++ r :: l₂ ∧ (∀ q ∈ l₁, f r < f q) ∧ (∀ q ∈ l, f r ≤ f q) := by
  match l with
  | [] => exact absurd rfl hne
  | b :: t =>
    obtain ⟨r, hr, hcase⟩ := foldl_min_spec f t b
    refine ⟨r, by simp [pyMin, hr], ?_⟩
    rcases hcase with ⟨req, hall⟩ | ⟨hlt, l₁, l₂, heq, h₁, h₂⟩
    · subst req
      refine ⟨[], t, rfl, by simp, ?_⟩
      intro x hx
      rcases List.mem_cons.mp hx with hxb | hxt
      · exact hxb ▸ le_refl _
      · exact hall x hxt
    · refine ⟨b :: l₁, l₂, by simp [heq], ?_, ?_⟩
      · intro x hx
        rcases List.mem_cons.mp hx with hxb | hxl
        · exact hxb ▸ hlt
        · exact h₁ x hxl
      · intro x hx
        rw [heq] at hx
        rcases List.mem_cons.mp hx with hxb | hx'
        · exact hxb ▸ le_of_lt hlt
        · rcases List.mem_append.mp hx' with hxl | hxr
          · exact le_of_lt (h₁ x hxl)
          · rcases List.mem_cons.mp hxr with hxr' | hxl₂
            · exact hxr' ▸ le_refl _
            · exact h₂ x hxl₂

theorem find_first_split {α : Type} (p : α → Bool) (l₁ l₂ : List α) (r : α)
    (h₁ : ∀ q ∈ l₁, p q = false) (hr : p r = true) :
    (l₁ ++ r :: l₂).find? p = some r := by
  induction l₁ with
  | nil => simp [List.find?_cons, hr]
  | cons a t ih =>
    have ha := h₁ a (List.mem_cons_self a t)
    simp only [List.cons_append, List.find?_cons, ha]
    exact ih (fun q hq => h₁ q (List.mem_cons_of_mem a hq))

/-! ### Association-list lemmas -/

theorem assoc_eq_of_nodup_keys {β : Type} :
    ∀ {l : List (Nat × β)}, (l.map Prod.fst).Nodup →
      ∀ {p q : Nat × β}, p ∈ l → q ∈ l → p.1 = q.1 → p = q := by
  intro l
  induction l with
  | nil => intro _ p q hp; exact absurd hp (List.not_mem_nil p)
  | cons x t ih =>
    intro hnd p q hp hq hpq
    obtain ⟨hx, ht⟩ := List.nodup_cons.mp hnd
    rcases List.mem_cons.mp hp with hpx | hpt <;> rcases List.mem_cons.mp hq with hqx | hqt
    · exact hpx.trans hqx.symm
    · exfalso
      exact hx (by simpa [hpx ▸ hpq] using List.mem_map_of_mem Prod.fst hqt)
    · exfalso
      exact hx (by simpa [hqx ▸ hpq.symm] using List.mem_map_of_mem Prod.fst hpt)
    · exact ih ht hpt hqt hpq

/-! ### Row characterisations -/

theorem statsRow_some_iff {x : Nat × List Sample} {st : ReplayForecastStats} :
    statsRow x = some st ↔ x.2 ≠ [] ∧
      st = { horizon := x.1, sampleCount := x.2.length, mae := meanAbs x.2,
             rmseSq := meanSq x.2, mardPct := meanArd x.2 * 100 } := by
  unfold statsRow
  by_cases h : x.2 = [] <;> simp [h, eq_comm]

theorem driftRow_some_iff {x : Nat × List Sample} {d : ReplayDriftStats} :
    driftRow x = some d ↔ 10 ≤ x.2.length ∧
      d = { horizon := x.1
            previousMae := meanAbs ((sortKey (fun s => s.ts) x.2).take (x.2.length / 2))
            recentMae := meanAbs ((sortKey (fun s => s.ts) x.2).drop (x.2.length / 2))
            deltaMae := meanAbs ((sortKey (fun s => s.ts) x.2).drop (x.2.length / 2)) -
              meanAbs ((sortKey (fun s => s.ts) x.2).take (x.2.length / 2)) } := by
  unfold driftRow
  simp only [length_sortKey]
  by_cases h : x.2.length < 10
  · simp [h, Nat.not_le.mpr h]
  · simp [h, Nat.not_lt.mp h, eq_comm]

/-! ### Claim theorems -/

/-- C1. For every glucose list, therapy-event list, `since`, `until`
and `stepMinutes` such that fewer than 30 glucose readings fall in the
closed interval `[since, until]`, `build_replay_report` returns a report
with empty forecast, day-type, hourly and drift statistics, exactly one
all-zero rule-stat row for `PostHypoReboundGuard.v1`, and `points` equal
to the number of filtered readings.  The short-circuit is structural: in
the embedding the guard branch contains no call to `predict` or
`evaluate_post_hypo_rebound`. -/
theorem build_replay_report_insufficient_guard (g : List GlucosePoint)
    (t : List TherapyEvent) (s u m : Int)
    (h : (g.filter (fun p => inRange s u p.ts)).length < 30) :
    guardReportSpec g t s u m := by
  unfold guardReportSpec build_replay_report
  have hlen : (sortKey (fun p => p.ts) (g.filter (fun p => inRange s u p.ts))).length
      = (g.filter (fun p => inRange s u p.ts)).length := length_sortKey _ _
  rw [if_pos (by rwa [hlen])]
  exact ⟨rfl, rfl, rfl, rfl, rfl, hlen⟩

/-- C1 witness. An empty glucose list trivially has fewer than 30
in-range readings. -/
theorem build_replay_report_insufficient_guard_witness :
    (([] : List GlucosePoint).filter (fun p => inRange 0 100 p.ts)).length < 30 ∧
      guardReportSpec [] [] 0 100 5 :=
  ⟨by decide, build_replay_report_insufficient_guard [] [] 0 100 5 (by decide)⟩

/-- C9. `build_replay_report` is deterministic: two calls on equal
arguments yield equal reports.  The embedding is a pure function, so the
absence of input mutation and of hidden time-dependent state holds by
construction. -/
theorem build_replay_report_deterministic (g g' : List GlucosePoint)
    (t t' : List TherapyEvent) (s s' u u' m m' : Int)
    (hg : g = g') (ht : t = t') (hs : s = s') (hu : u = u') (hm : m = m') :
    build_replay_report g t s u m = build_replay_report g' t' s' u' m' := by
  subst hg ht hs hu hm
  rfl

/-- C9 witness. Determinism instantiated at a concrete call. -/
theorem build_replay_report_deterministic_witness :
    ([] : List GlucosePoint) = [] ∧
      build_replay_report [] [] 0 1 5 = build_replay_report [] [] 0 1 5 :=
  ⟨rfl, build_replay_report_deterministic [] [] [] [] 0 0 1 1 5 5 rfl rfl rfl rfl rfl⟩

/-- C10. The report is independent of the therapy-event argument:
the rolling therapy window of the simulation loop is computed but never
consulted, so any two therapy lists give identical reports. -/
theorem build_replay_report_therapy_independent (g : List GlucosePoint)
    (e₁ e₂ : List TherapyEvent) (s u m : Int) :
    build_replay_report g e₁ s u m = build_replay_report g e₂ s u m := by
  rfl

/-- C2 counterexample. The claim "ciLow ≤ valueMmol ≤ ciHigh for each
returned forecast" fails for a single reading of 1.0 mmol/L: the
5-minute forecast value is 1.0 while its lower bound is floored at 2.2. -/
theorem predict_band_counterexample :
    ¬ (∀ fc ∈ predict [⟨0, 1, "t", "OK"⟩],
        fc.ciLow ≤ fc.valueMmol ∧ fc.valueMmol ≤ fc.ciHigh) := by
  intro h
  have hp : predict [⟨0, 1, "t", "OK"⟩]
      = [⟨300000, 5, 1, 2.2, 1.45, "cloud-hf-v1"⟩,
         ⟨3600000, 60, 1, 2.2, 2.2, "cloud-ensemble-v1"⟩] := by
    norm_num [predict, sortKey, insertKey, _slope_per_5m, lastN]
  have hm : (⟨300000, 5, 1, 2.2, 1.45, "cloud-hf-v1"⟩ : ForecastOut)
      ∈ predict [⟨0, 1, "t", "OK"⟩] := by
    rw [hp]
    exact List.mem_cons_self _ _
  have h1 := (h _ hm).1
  norm_num at h1

/-- C2, amended. For every non-empty glucose list, `predict` returns
exactly two forecasts with horizons 5 and 60; each value is below its
upper confidence bound, and above the lower bound whenever the value is
at least the 2.2 mmol/L floor applied to `ciLow`. -/
theorem predict_band (glucose : List GlucosePoint) (h : glucose ≠ []) :
    predictBandSpec glucose := by
  unfold predictBandSpec predict
  rw [if_neg h]
  refine ⟨_, _, rfl, rfl, rfl, ?_, ?_, ?_, ?_⟩
  · dsimp only
    linarith
  · dsimp only
    linarith
  · dsimp only
    intro hv
    exact max_le hv (by linarith)
  · dsimp only
    intro hv
    exact max_le hv (by linarith)

/-- C2 witness. The amended band property at a one-point list. -/
theorem predict_band_witness :
    ([⟨0, 5, "t", "OK"⟩] : List GlucosePoint) ≠ [] ∧ predictBandSpec [⟨0, 5, "t", "OK"⟩] :=
  ⟨by decide, predict_band [⟨0, 5, "t", "OK"⟩] (by decide)⟩

/-- C3 counterexample. On the four-reading series 3.0, 3.0, 3.3, 3.7
the evaluator returns NO_MATCH (the most recent reading ≤ 3.0 is the
second 3.0, leaving only two post-hypo readings), not TRIGGERED as the
claim asserts. -/
theorem rebound_example_counterexample :
    (evaluate_post_hypo_rebound
        [⟨0, 3, "t", "OK"⟩, ⟨300000, 3, "t", "OK"⟩,
         ⟨600000, 3.3, "t", "OK"⟩, ⟨900000, 3.7, "t", "OK"⟩]).state
      = RuleState.NO_MATCH ∧
    RuleState.NO_MATCH ≠ RuleState.TRIGGERED ∧
    (evaluate_post_hypo_rebound
        [⟨0, 3, "t", "OK"⟩, ⟨300000, 3, "t", "OK"⟩,
         ⟨600000, 3.3, "t", "OK"⟩, ⟨900000, 3.7, "t", "OK"⟩]).actionProposal = none := by
  refine ⟨?_, by decide, ?_⟩ <;>
    norm_num [evaluate_post_hypo_rebound, sortKey, insertKey, noMatchDecision]

/-- C3, amended. The series 3.0, 3.0, 3.3, 3.7 yields NO_MATCH with
reason `insufficient_post_hypo_points`; a series whose last hypo reading
is followed by three readings rising by more than 0.2 each — 3.0, 3.3,
3.6, 4.0 — yields TRIGGERED with a temp-target proposal of 4.4 mmol/L
for 60 minutes. -/
theorem rebound_example_amended :
    evaluate_post_hypo_rebound
        [⟨0, 3, "t", "OK"⟩, ⟨300000, 3, "t", "OK"⟩,
         ⟨600000, 3.3, "t", "OK"⟩, ⟨900000, 3.7, "t", "OK"⟩]
      = noMatchDecision "insufficient_post_hypo_points" ∧
    evaluate_post_hypo_rebound
        [⟨0, 3, "t", "OK"⟩, ⟨300000, 3.3, "t", "OK"⟩,
         ⟨600000, 3.6, "t", "OK"⟩, ⟨900000, 4, "t", "OK"⟩]
      = { ruleId := "PostHypoReboundGuard.v1"
          state := RuleState.TRIGGERED
          reasons := ["hypo_plus_rising_trend"]
          actionProposal := some
            { type := "temp_target", targetMmol := 4.4,
              durationMinutes := 60, reason := "post_hypo_rebound" } } := by
  constructor <;>
    norm_num [evaluate_post_hypo_rebound, sortKey, insertKey, noMatchDecision]

/-- C7 counterexample. For a matched forecast whose actual reading
has the nonzero value −1, the code records a relative difference of 0,
not `absoluteError / actual.value = −3` as the claim's "whenever nonzero"
wording demands. -/
theorem sample_ard_counterexample :
    (mkSample ⟨0, -1, "t", "OK"⟩ ⟨0, 5, 2, 0, 0, "m"⟩).ard = 0 ∧
    ((-1 : ℚ) ≠ 0) ∧
    (mkSample ⟨0, -1, "t", "OK"⟩ ⟨0, 5, 2, 0, 0, "m"⟩).absError / (-1 : ℚ) = -3 ∧
    (mkSample ⟨0, -1, "t", "OK"⟩ ⟨0, 5, 2, 0, 0, "m"⟩).ard
      ≠ (mkSample ⟨0, -1, "t", "OK"⟩ ⟨0, 5, 2, 0, 0, "m"⟩).absError / (-1 : ℚ) ∧
    scoreForecast [⟨0, -1, "t", "OK"⟩] ⟨0, 5, 2, 0, 0, "m"⟩
      = some (mkSample ⟨0, -1, "t", "OK"⟩ ⟨0, 5, 2, 0, 0, "m"⟩) := by
  norm_num [mkSample, scoreForecast, _closest_glucose, pyMin, tolerance_ms]

/-- C7, amended. Every recorded sample has
`absoluteError = |actual - forecast|`, `squaredError = absoluteError²`,
timestamp of the actual reading, and a relative difference of
`absoluteError / actual.value` for positive actual values and 0 for
non-positive ones (in particular 0 at zero); the computation is total,
so a zero actual value raises nothing. -/
theorem sample_fields (actual : GlucosePoint) (fc : ForecastOut) :
    sampleFieldsSpec actual fc := by
  unfold sampleFieldsSpec mkSample
  refine ⟨rfl, rfl, fun h => ?_, fun h => ?_, rfl⟩
  · dsimp only
    rw [if_pos h]
  · dsimp only
    rw [if_neg (not_lt.mpr h)]

/-- C7 witness. The amended fields property at a concrete sample. -/
theorem sample_fields_witness :
    sampleFieldsSpec ⟨0, 1, "t", "OK"⟩ ⟨0, 5, 3, 0, 0, "m"⟩ :=
  sample_fields ⟨0, 1, "t", "OK"⟩ ⟨0, 5, 3, 0, 0, "m"⟩

/-- C5. Each forecast is matched to the reading minimising the
absolute timestamp difference to the forecast's target, first occurrence
on ties, kept only within the horizon tolerance (5 min for horizons
≤ 10, 15 min beyond); an unmatched forecast yields `none`, contributing
no sample and raising nothing (the embedding is total). -/
theorem closest_match_spec :
    (∀ (points : List GlucosePoint) (t tol : Int), closestSpec points t tol) ∧
    (∀ (g : List GlucosePoint) (fc : ForecastOut),
      scoreForecast g fc =
        Option.map (fun a => mkSample a fc)
          (_closest_glucose g fc.ts (if fc.horizon ≤ 10 then 5 * 60 * 1000 else 15 * 60 * 1000))) := by
  constructor
  · intro points t tol
    unfold closestSpec
    constructor
    · intro p hp
      cases points with
      | nil => simp [_closest_glucose, pyMin] at hp
      | cons b rest =>
        obtain ⟨r, hmin, l₁, l₂, hsplit, hstrict, hall⟩ :=
          pyMin_spec (fun x => |x.ts - t|) (b :: rest) (by simp)
        unfold _closest_glucose at hp
        rw [hmin] at hp
        dsimp only at hp
        by_cases hc : tol < |r.ts - t|
        · rw [if_pos hc] at hp
          exact absurd hp (by simp)
        · rw [if_neg hc] at hp
          obtain rfl : r = p := Option.some.inj hp
          refine ⟨?_, not_lt.mp hc, hall, ?_⟩
          · rw [hsplit]
            exact List.mem_append.mpr (Or.inr (List.mem_cons_self _ _))
          · rw [hsplit]
            refine find_first_split _ l₁ l₂ r ?_ (by simp)
            intro q hq
            exact decide_eq_false (ne_of_gt (hstrict q hq))
    · intro hn
      cases points with
      | nil => exact Or.inl rfl
      | cons b rest =>
        refine Or.inr ?_
        obtain ⟨r, hmin, l₁, l₂, hsplit, hstrict, hall⟩ :=
          pyMin_spec (fun x => |x.ts - t|) (b :: rest) (by simp)
        unfold _closest_glucose at hn
        rw [hmin] at hn
        dsimp only at hn
        by_cases hc : tol < |r.ts - t|
        · intro q hq
          exact lt_of_lt_of_le hc (hall q hq)
        · rw [if_neg hc] at hn
          exact absurd hn (by simp)
  · intro g fc
    unfold scoreForecast tolerance_ms
    rcases h : _closest_glucose g fc.ts
        (if fc.horizon ≤ 10 then 5 * 60 * 1000 else 15 * 60 * 1000) with _ | a <;> rfl

/-- C5 witness. The lookup characterisation at a concrete list. -/
theorem closest_match_spec_witness :
    closestSpec [⟨100, 1, "a", "OK"⟩, ⟨-100, 2, "b", "OK"⟩] 0 300000 :=
  closest_match_spec.1 [⟨100, 1, "a", "OK"⟩, ⟨-100, 2, "b", "OK"⟩] 0 300000

/-- C6. For at least two readings, `predict` computes the slope
`(last.value - ref.value) / max(1, last.ts - ref.ts) * 300000` over the
time-sorted list, with `ref` six positions back from the end (or the
first reading); the 5-minute value is `last.value + slope` targeted at
`last.ts + 5 min`, the 60-minute value is the mean of the last up-to-24
readings plus `slope * 12` targeted at `last.ts + 60 min`. -/
theorem predict_formula (glucose : List GlucosePoint) (h2 : 2 ≤ glucose.length) :
    predictFormulaSpec glucose := by
  have hne : glucose ≠ [] := by
    intro e
    rw [e] at h2
    simp at h2
  have hslen : (sortKey (fun p => p.ts) glucose).length = glucose.length :=
    length_sortKey _ _
  have hlt : ¬ (sortKey (fun p => p.ts) glucose).length < 2 := by
    rw [hslen]
    omega
  have hsl : _slope_per_5m (sortKey (fun p => p.ts) glucose)
      = (((sortKey (fun p => p.ts) glucose).getLastD default).valueMmol -
          (if 6 ≤ (sortKey (fun p => p.ts) glucose).length
           then (sortKey (fun p => p.ts) glucose).getD
             ((sortKey (fun p => p.ts) glucose).length - 6) default
           else (sortKey (fun p => p.ts) glucose).headD default).valueMmol) /
          ((max 1 (((sortKey (fun p => p.ts) glucose).getLastD default).ts -
            (if 6 ≤ (sortKey (fun p => p.ts) glucose).length
             then (sortKey (fun p => p.ts) glucose).getD
               ((sortKey (fun p => p.ts) glucose).length - 6) default
             else (sortKey (fun p => p.ts) glucose).headD default).ts) : Int) : ℚ) * 300000 := by
    unfold _slope_per_5m
    rw [if_neg hlt]
    dsimp only
    norm_num
  have hlenw : ((lastN (sortKey (fun p => p.ts) glucose) 24).map
      (fun p => p.valueMmol)).length ≠ 0 := by
    rw [List.length_map]
    unfold lastN
    rw [List.length_drop, hslen]
    omega
  have hwne : (lastN (sortKey (fun p => p.ts) glucose) 24).map (fun p => p.valueMmol) ≠ [] := by
    intro e
    exact hlenw (by rw [e]; rfl)
  unfold predictFormulaSpec
  dsimp only
  unfold predict
  rw [if_neg hne]
  dsimp only
  refine ⟨_, _, rfl, ?_, rfl, ?_, rfl⟩
  · dsimp only
    linarith [hsl]
  · dsimp only
    rw [if_neg hwne]
    linarith [hsl]

/-- C6 witness. The formula property at a concrete two-point list. -/
theorem predict_formula_witness :
    2 ≤ ([⟨0, 5, "a", "OK"⟩, ⟨300000, 6, "a", "OK"⟩] : List GlucosePoint).length ∧
      predictFormulaSpec [⟨0, 5, "a", "OK"⟩, ⟨300000, 6, "a", "OK"⟩] :=
  ⟨by decide, predict_formula [⟨0, 5, "a", "OK"⟩, ⟨300000, 6, "a", "OK"⟩] (by decide)⟩

/-- C4. The drift statistics contain one row per horizon with at
least 10 samples and omit the rest; each included horizon's samples are
sorted ascending by actual timestamp, the first `n / 2` form the
previous half, the remainder (larger on odd counts) the recent half, the
two MAEs are the halves' mean absolute errors, and
`deltaMae = recentMae - previousMae`. -/
theorem drift_stats (he : List (Nat × List Sample)) (hk : (he.map Prod.fst).Nodup) :
    driftStatsSpec he := by
  unfold driftStatsSpec
  constructor
  · intro d hd
    unfold _build_drift_stats at hd
    rw [List.mem_filterMap] at hd
    obtain ⟨x, hx, hfx⟩ := hd
    have hxhe : x ∈ he := (mem_sortKey _ he x).mp hx
    obtain ⟨h10, hdeq⟩ := driftRow_some_iff.mp hfx
    refine ⟨x, hxhe, by rw [hdeq], h10, ?_⟩
    unfold driftEntrySpec
    refine ⟨sortKey (fun s => s.ts) x.2, perm_sortKey _ _, sorted_sortKey _ _, rfl,
      ?_, ?_, ?_, ?_, ?_⟩
    · rw [List.length_take, length_sortKey]
      exact Nat.min_eq_left (Nat.div_le_self _ _)
    · rw [List.length_drop, length_sortKey]
    · rw [hdeq]
    · rw [hdeq]
    · rw [hdeq]
  · intro p hp
    constructor
    · intro h10
      have hrow := driftRow_some_iff.mpr ⟨h10, rfl⟩
      refine ⟨{ horizon := p.1
                previousMae := meanAbs ((sortKey (fun s => s.ts) p.2).take (p.2.length / 2))
                recentMae := meanAbs ((sortKey (fun s => s.ts) p.2).drop (p.2.length / 2))
                deltaMae := meanAbs ((sortKey (fun s => s.ts) p.2).drop (p.2.length / 2)) -
                  meanAbs ((sortKey (fun s => s.ts) p.2).take (p.2.length / 2)) }, ?_, rfl⟩
      unfold _build_drift_stats
      rw [List.mem_filterMap]
      exact ⟨p, (mem_sortKey _ he p).mpr hp, hrow⟩
    · rintro ⟨d, hd, hdh⟩
      unfold _build_drift_stats at hd
      rw [List.mem_filterMap] at hd
      obtain ⟨q, hq, hfq⟩ := hd
      have hqhe : q ∈ he := (mem_sortKey _ he q).mp hq
      obtain ⟨h10, hdeq⟩ := driftRow_some_iff.mp hfq
      have hq1 : q.1 = p.1 := by
        rw [hdeq] at hdh
        exact hdh
      have hqp : q = p := assoc_eq_of_nodup_keys hk hqhe hp hq1
      rw [← hqp]
      exact h10

/-- C4 witness. Drift statistics on a single 11-sample horizon (so
the halves have 5 and 6 samples). -/
theorem drift_stats_witness :
    (([(5, [⟨1, 1, 0, 0⟩, ⟨1, 1, 0, 1⟩, ⟨1, 1, 0, 2⟩, ⟨1, 1, 0, 3⟩, ⟨1, 1, 0, 4⟩,
        ⟨1, 1, 0, 5⟩, ⟨1, 1, 0, 6⟩, ⟨1, 1, 0, 7⟩, ⟨1, 1, 0, 8⟩, ⟨1, 1, 0, 9⟩, ⟨1, 1, 0, 10⟩])]
      : List (Nat × List Sample)).map Prod.fst).Nodup ∧
    driftStatsSpec
      [(5, [⟨1, 1, 0, 0⟩, ⟨1, 1, 0, 1⟩, ⟨1, 1, 0, 2⟩, ⟨1, 1, 0, 3⟩, ⟨1, 1, 0, 4⟩,
        ⟨1, 1, 0, 5⟩, ⟨1, 1, 0, 6⟩, ⟨1, 1, 0, 7⟩, ⟨1, 1, 0, 8⟩, ⟨1, 1, 0, 9⟩, ⟨1, 1, 0, 10⟩])] :=
  ⟨by decide, drift_stats _ (by decide)⟩

/-- Keys are unchanged by the per-day-type regrouping. -/
theorem dayTypeRows_keys (he : List (Nat × List Sample)) (w : Bool) :
    (dayTypeRows he w).map Prod.fst = he.map Prod.fst := by
  unfold dayTypeRows
  rw [List.map_map]
  rfl

/-- One day-type partition of `_build_day_type_stats` satisfies C8's
per-partition assertions. -/
theorem dayTypePartition_aux (he : List (Nat × List Sample))
    (hk : (he.map Prod.fst).Nodup) (w : Bool) :
    dayTypePartitionSpec he w (buildForecastStats (dayTypeRows he w)) := by
  have hknd : ((dayTypeRows he w).map Prod.fst).Nodup := by
    rw [dayTypeRows_keys]
    exact hk
  unfold dayTypePartitionSpec
  refine ⟨?_, ?_, ?_, ?_⟩
  · have hsorted := sorted_sortKey (fun x => (x.1 : Int)) (dayTypeRows he w)
    have hnd2 : ((sortKey (fun x => (x.1 : Int)) (dayTypeRows he w)).map Prod.fst).Nodup :=
      (((perm_sortKey (fun x => (x.1 : Int)) (dayTypeRows he w)).map Prod.fst).nodup_iff).mpr hknd
    have hne' : List.Pairwise (fun x y : Nat × List Sample => x.1 ≠ y.1)
        (sortKey (fun x => (x.1 : Int)) (dayTypeRows he w)) := List.pairwise_map.mp hnd2
    have hlt : List.Pairwise (fun x y : Nat × List Sample => x.1 < y.1)
        (sortKey (fun x => (x.1 : Int)) (dayTypeRows he w)) := by
      refine (hsorted.and hne').imp ?_
      rintro a b ⟨hle, hne⟩
      exact lt_of_le_of_ne (by exact_mod_cast hle) hne
    unfold buildForecastStats
    refine List.Pairwise.filterMap statsRow ?_ hlt
    intro a b hab st hst st' hst'
    obtain ⟨_, hsteq⟩ := statsRow_some_iff.mp (Option.mem_def.mp hst)
    obtain ⟨_, hsteq'⟩ := statsRow_some_iff.mp (Option.mem_def.mp hst')
    rw [hsteq, hsteq']
    exact hab
  · intro st hst
    unfold buildForecastStats at hst
    rw [List.mem_filterMap] at hst
    obtain ⟨x, hx, hfx⟩ := hst
    have hxdr : x ∈ dayTypeRows he w := (mem_sortKey _ _ _).mp hx
    unfold dayTypeRows at hxdr
    rw [List.mem_map] at hxdr
    obtain ⟨p, hp, hxp⟩ := hxdr
    obtain ⟨hne0, hsteq⟩ := statsRow_some_iff.mp hfx
    subst hxp
    exact ⟨p, hp, by rw [hsteq], hne0, by rw [hsteq], by rw [hsteq], by rw [hsteq],
      by rw [hsteq], by rw [hsteq]⟩
  · intro p hp hfne
    have hmem : ((p.1, p.2.filter (fun s => isWeekend s.ts == w)) : Nat × List Sample)
        ∈ dayTypeRows he w := by
      unfold dayTypeRows
      rw [List.mem_map]
      exact ⟨p, hp, rfl⟩
    have hrow : statsRow (p.1, p.2.filter (fun s => isWeekend s.ts == w))
        = some { horizon := p.1
                 sampleCount := (p.2.filter (fun s => isWeekend s.ts == w)).length
                 mae := meanAbs (p.2.filter (fun s => isWeekend s.ts == w))
                 rmseSq := meanSq (p.2.filter (fun s => isWeekend s.ts == w))
                 mardPct := meanArd (p.2.filter (fun s => isWeekend s.ts == w)) * 100 } :=
      statsRow_some_iff.mpr ⟨hfne, rfl⟩
    refine ⟨{ horizon := p.1
              sampleCount := (p.2.filter (fun s => isWeekend s.ts == w)).length
              mae := meanAbs (p.2.filter (fun s => isWeekend s.ts == w))
              rmseSq := meanSq (p.2.filter (fun s => isWeekend s.ts == w))
              mardPct := meanArd (p.2.filter (fun s => isWeekend s.ts == w)) * 100 }, ?_, rfl⟩
    unfold buildForecastStats
    rw [List.mem_filterMap]
    exact ⟨_, (mem_sortKey _ _ _).mpr hmem, hrow⟩
  · intro hall
    unfold buildForecastStats
    rw [List.filterMap_eq_nil_iff]
    intro x hx
    have hxdr : x ∈ dayTypeRows he w := (mem_sortKey _ _ _).mp hx
    unfold dayTypeRows at hxdr
    rw [List.mem_map] at hxdr
    obtain ⟨p, hp, hxp⟩ := hxdr
    subst hxp
    unfold statsRow
    rw [if_pos (hall p hp)]

/-- C8. The day-type statistics always hold exactly the WEEKDAY
entry followed by the WEEKEND entry; samples are partitioned by the UTC
weekend flag of their actual timestamp; within a partition the
per-horizon rows carry the mean absolute error, the `rmse` radicand
(mean squared error, so `rmse = √(mean squared error)`) and the mean
relative difference ×100, ascending by horizon; an empty partition
yields an empty list. -/
theorem day_type_stats (he : List (Nat × List Sample))
    (hk : (he.map Prod.fst).Nodup) : dayTypeStatsSpec he := by
  unfold dayTypeStatsSpec
  refine ⟨⟨_, _, rfl, rfl, rfl, dayTypePartition_aux he hk false, dayTypePartition_aux he hk true⟩, ?_⟩
  intro p _
  exact List.filter_append_perm _ p.2

/-- C8 witness. Day-type statistics on one two-sample horizon
(timestamps on a Thursday and a Saturday of January 1970). -/
theorem day_type_stats_witness :
    (([(5, [⟨1, 1, 0, 0⟩, ⟨2, 4, 0, 172800000⟩])] : List (Nat × List Sample)).map Prod.fst).Nodup ∧
    dayTypeStatsSpec [(5, [⟨1, 1, 0, 0⟩, ⟨2, 4, 0, 172800000⟩])] :=
  ⟨by decide, day_type_stats _ (by decide)⟩
